import Mathlib

/-!
Shallow embedding of the Windows raw-HID device layer
(`src/libhidpp/hid/RawDevice_windows.cpp` and
`src/libhidpp/hid/ReportDescriptor.h`) and proofs about it.

Platform calls (CreateFile, CreateEvent, ReadFile, WriteFile,
WaitForMultipleObjects, GetOverlappedResult, HidD/HidP queries, ...) are
modelled as oracle inputs: each fallible native call is one parameter
giving its outcome, so the embedded functions are pure and total while
following the source's control flow statement by statement.
-/

namespace HID

/-! ## Windows constants used by the source -/

def WAIT_OBJECT_0 : Nat := 0
def WAIT_TIMEOUT : Nat := 258
def WAIT_FAILED : Nat := 4294967295
/-- The `INFINITE` timeout value passed to `WaitForMultipleObjects`. -/
def INFINITE : Nat := 4294967295

/-! ## Errors

The source throws `std::system_error (code, category, what)` for native
failures and `std::runtime_error (msg)` for logic/invariant failures. -/

inductive CError where
  | systemError (code : Nat) (what : String)
  | runtimeError (msg : String)
deriving Repr, DecidableEq

instance {ε α : Type} [DecidableEq ε] [DecidableEq α] : DecidableEq (Except ε α) :=
  fun a b =>
    match a, b with
    | .error e1, .error e2 =>
      if h : e1 = e2 then .isTrue (by rw [h])
      else .isFalse (by intro hh; injection hh; contradiction)
    | .ok x, .ok y =>
      if h : x = y then .isTrue (by rw [h])
      else .isFalse (by intro hh; injection hh; contradiction)
    | .error _, .ok _ => .isFalse (by intro hh; cases hh)
    | .ok _, .error _ => .isFalse (by intro hh; cases hh)

/-! ## ReportDescriptor.h : flags, report ids, fields, collections -/

/-- `ReportField::Flags::Bits::Data_Constant` (1<<0). -/
def Data_Constant : Nat := 1
/-- `ReportField::Flags::Bits::Array_Variable` (1<<1). -/
def Array_Variable : Nat := 2

/-- `ReportField::Flags::isData`: `!(bits & Data_Constant)`. -/
def isData (bits : Nat) : Bool := bits &&& Data_Constant == 0
/-- `ReportField::Flags::isConstant`: `bits & Data_Constant`. -/
def isConstant (bits : Nat) : Bool := bits &&& Data_Constant != 0
/-- `ReportField::Flags::isArray`: `!(bits & Array_Variable)`. -/
def isArray (bits : Nat) : Bool := bits &&& Array_Variable == 0
/-- `ReportField::Flags::isVariable`: `bits & Array_Variable`. -/
def isVariable (bits : Nat) : Bool := bits &&& Array_Variable != 0

/-- `ReportID::Type` (`Input = 8`, `Output = 9`, `Feature = 11`). -/
inductive ReportType where
  | Input
  | Output
  | Feature
deriving Repr, DecidableEq

/-- `ReportID`: a report type together with the numeric report id. -/
structure ReportID where
  type : ReportType
  id : Nat
deriving Repr, DecidableEq

/-- `ReportField::usages`: `std::variant` of a usage list and a usage range. -/
inductive Usages where
  | list (l : List Nat)
  | range (lo hi : Nat)
deriving Repr, DecidableEq

/-- `ReportField`: flag bits plus the usages variant. -/
structure ReportField where
  flagBits : Nat
  usages : Usages
deriving Repr, DecidableEq

/-! ## Windows capability entries

`HIDP_BUTTON_CAPS` / `HIDP_VALUE_CAPS`, restricted to the members the
source reads: `ReportID`, `BitField`, `IsRange`, `UsagePage`,
`Range.UsageMin/UsageMax`, `NotRange.Usage`, `NotRange.DataIndex`. -/

structure HidCap where
  reportID : Nat
  bitField : Nat
  isRange : Bool
  usagePage : Nat
  usageMin : Nat
  usageMax : Nat
  usage : Nat
  dataIndex : Nat
deriving Repr, DecidableEq

/-- The field built by the `add_field` lambda (lines 211-223): copy the
native bit field verbatim and store either a usage range or a singleton
usage list, each usage encoded as `page<<16 | usage`. -/
def capToField (cap : HidCap) : ReportField :=
  { flagBits := cap.bitField
    usages :=
      if cap.isRange then
        .range ((cap.usagePage <<< 16) ||| cap.usageMin)
               ((cap.usagePage <<< 16) ||| cap.usageMax)
      else
        .list [(cap.usagePage <<< 16) ||| cap.usage] }

/-- The two while-loops of lines 226-237: merge the button-capability and
value-capability arrays by ascending `DataIndex`, taking the button entry
only when its data index is strictly smaller. -/
def mergeByDataIndex : List HidCap → List HidCap → List HidCap
  | [], vs => vs
  | b :: bs, [] => b :: bs
  | b :: bs, v :: vs =>
    if b.dataIndex < v.dataIndex then b :: mergeByDataIndex bs (v :: vs)
    else v :: mergeByDataIndex (b :: bs) vs
termination_by bs vs => bs.length + vs.length

/-! ## Report buckets

`collection.reports` is a `std::map<ReportID, std::vector<ReportField>>`;
`add_field` does `emplace (key, empty)` then `push_back` on the mapped
vector.  We model the map as an association list in key-insertion order;
nothing proved here depends on the iteration order of the keys, only on
each key's bucket content and on the key set. -/

abbrev ReportMap := List (ReportID × List ReportField)

/-- `collection.reports.emplace (key, 0)` followed by
`it->second.emplace_back (field)`. -/
def emplacePush (m : ReportMap) (k : ReportID) (f : ReportField) : ReportMap :=
  match m with
  | [] => [(k, [f])]
  | (k0, fs) :: rest =>
    if k0 = k then (k0, fs ++ [f]) :: rest
    else (k0, fs) :: emplacePush rest k f

/-- The bucket stored for key `k` (empty when the key is absent). -/
def bucketOf (m : ReportMap) (k : ReportID) : List ReportField :=
  match m with
  | [] => []
  | (k0, fs) :: rest => if k0 = k then fs else bucketOf rest k

/-- Applying `add_field` to every capability entry in order: each field is
appended to the bucket of `(reportType, cap.ReportID)`. -/
def addFields (rtype : ReportType) (m : ReportMap) (caps : List HidCap) : ReportMap :=
  caps.foldl (fun m cap => emplacePush m ⟨rtype, cap.reportID⟩ (capToField cap)) m

/-- Ordering of capability entries by internal data index. -/
def capLE (a b : HidCap) : Prop := a.dataIndex ≤ b.dataIndex

instance : DecidableRel capLE := fun a b => Nat.decLe a.dataIndex b.dataIndex

/-! ## Device state (`RawDevice::PrivateImpl` + the `RawDevice` members) -/

/-- The members of `HIDP_CAPS` the source reads.  A value-initialized
(`= {}`) record models a zeroed `HIDP_CAPS`. -/
structure HidpCaps where
  usagePage : Nat := 0
  usage : Nat := 0
  inputReportByteLength : Nat := 0
deriving Repr, DecidableEq

/-- `PrivateImpl::Device`: file handle, per-device event handle, caps.
Handles are modelled as bare numbers. -/
structure Device where
  file : Nat
  event : Nat
  caps : HidpCaps
deriving Repr, DecidableEq

/-- One top-level `ReportCollection` (`type` is never assigned on the
Windows path, so it stays value-initialized). -/
structure Collection where
  ctype : Nat := 0
  usage : Nat
  reports : ReportMap
deriving Repr, DecidableEq

/-- `std::map<uint8_t, HANDLE> reports` (the report router), modelled as
an association list in key-insertion order.  Lookup results and the key
set are iteration-order independent, which is all the proofs use. -/
abbrev RouteMap := List (Nat × Nat)

/-- `map::find`. -/
def mapFind (m : RouteMap) (k : Nat) : Option Nat :=
  match m with
  | [] => none
  | (k0, v) :: rest => if k0 = k then some v else mapFind rest k

/-- The state of a fully constructed `RawDevice`. -/
structure RawDevice where
  devices : List Device
  reports : RouteMap
  interruptedEvent : Nat
  vendorId : Nat
  productId : Nat
  name : String
  collections : List Collection
deriving Repr, DecidableEq

/-! ## Construction (`RawDevice::RawDevice (const std::string &)`)

Each candidate interface produced by the enumerator is one
`IfaceInput`; every fallible native call is an oracle field
(`none`/`false` = the native call failed). -/

/-- Capability data of one interface: `HIDP_CAPS` header values plus the
button/value capability arrays for each of the three report types. -/
structure TypeCapsInput where
  buttonCaps : List HidCap
  valueCaps : List HidCap
deriving Repr, DecidableEq

structure CapsInput where
  usagePage : Nat
  usage : Nat
  inputReportByteLength : Nat
  inputCaps : TypeCapsInput
  outputCaps : TypeCapsInput
  featureCaps : TypeCapsInput
deriving Repr, DecidableEq

structure IfaceInput where
  /-- first component of `dev->parentInst ()`. -/
  parentOk : Bool
  /-- second component of `dev->parentInst ()`. -/
  parent : Nat
  /-- `CreateFile` result: `none` models `INVALID_HANDLE_VALUE`. -/
  openHandle : Option Nat
  /-- `CreateEvent` result for the per-device event. -/
  eventHandle : Option Nat
  eventErr : Nat
  /-- `HidD_GetAttributes`: `some (VendorID, ProductID)` on success. -/
  attrs : Option (Nat × Nat)
  attrsErr : Nat
  /-- `HidD_GetManufacturerString` (decoded). -/
  manufacturer : Option String
  manufacturerErr : Nat
  /-- `HidD_GetProductString` (decoded). -/
  product : Option String
  productErr : Nat
  /-- `HidD_GetPreparsedData` success. -/
  preparsedOk : Bool
  preparsedErr : Nat
  /-- `HidP_GetCaps`: `none` models a non-success status. -/
  capsQuery : Option CapsInput
  /-- `HidP_GetButtonCaps` success (consulted only when the count > 0). -/
  buttonCapsOk : Bool
  /-- `HidP_GetValueCaps` success (consulted only when the count > 0). -/
  valueCapsOk : Bool
deriving Repr, DecidableEq

/-- One report-type iteration of the `for` loop of lines 197-238:
query both capability arrays, then add the data-index merge of the two
to the collection's report buckets. -/
def buildTypeSection (rtype : ReportType) (tc : TypeCapsInput)
    (buttonCapsOk valueCapsOk : Bool) (m : ReportMap) :
    Except CError ReportMap :=
  if 0 < tc.buttonCaps.length ∧ buttonCapsOk = false then
    .error (.runtimeError "HidP_GetButtonCaps failed")
  else if 0 < tc.valueCaps.length ∧ valueCapsOk = false then
    .error (.runtimeError "HidP_GetValueCaps failed")
  else
    .ok (addFields rtype m (mergeByDataIndex tc.buttonCaps tc.valueCaps))

/-- Lines 240-244: for every report id declared by this interface's
collection, `_p->reports.emplace (id.id, hdev)`; if the numeric id is
already routed to a different handle, throw
`"Same Report ID on different handle."`. -/
def routeReports (reports : RouteMap) (hdev : Nat) :
    List ReportID → Except CError RouteMap
  | [] => .ok reports
  | id :: rest =>
    match mapFind reports id.id with
    | some h =>
      if h = hdev then routeReports reports hdev rest
      else .error (.runtimeError "Same Report ID on different handle.")
    | none => routeReports (reports ++ [(id.id, hdev)]) hdev rest

/-- Mutable state threaded through the construction loop. -/
structure BuildState where
  first : Bool := true
  vendorId : Nat := 0
  productId : Nat := 0
  name : String := ""
  devices : List Device := []
  reports : RouteMap := []
  collections : List Collection := []
deriving Repr, DecidableEq

/-- Lines 155-179: on the first opened interface, query the attributes
and the manufacturer/product strings and fill in vendor id, product id
and the device name. -/
def applyFirstAttrs (st : BuildState) (ifc : IfaceInput) : Except CError BuildState :=
  if st.first then
    match ifc.attrs with
    | none => .error (.systemError ifc.attrsErr "HidD_GetAttributes")
    | some (vid, pid) =>
      match ifc.manufacturer with
      | none => .error (.systemError ifc.manufacturerErr "HidD_GetManufacturerString")
      | some mfg =>
        match ifc.product with
        | none => .error (.systemError ifc.productErr "HidD_GetProductString")
        | some prod =>
          .ok { st with vendorId := vid, productId := pid,
                        name := mfg ++ " " ++ prod, first := false }
  else .ok st

/-- The body of the `while (auto dev = enumerator.get (i++))` loop
(lines 126-245) for one candidate interface. -/
def constructStep (parentInst : Nat) (st : BuildState) (ifc : IfaceInput) :
    Except CError BuildState :=
  -- if (!ok || parent != parent_inst) continue;
  if ifc.parentOk = false ∨ ifc.parent ≠ parentInst then .ok st
  else
    match ifc.openHandle with
    | none => .ok st -- CreateFile failed: a debug message is logged, then `continue`
    | some hdev =>
      match ifc.eventHandle with
      | none => .error (.systemError ifc.eventErr "CreateEvent")
      | some event =>
        -- _p->devices.push_back ({hdev, event});  (caps filled after HidP_GetCaps)
        match applyFirstAttrs
            { st with devices := st.devices ++
                [({ file := hdev, event := event, caps := {} } : Device)] } ifc with
        | .error e => .error e
        | .ok st =>
          if ifc.preparsedOk = false then
            .error (.systemError ifc.preparsedErr "HidD_GetPreparsedData")
          else
            match ifc.capsQuery with
            | none => .error (.runtimeError "HidP_GetCaps failed")
            | some caps =>
              -- HIDP_CAPS &caps = _p->devices.back ().caps;  (filled by HidP_GetCaps)
              let st := { st with devices := st.devices.dropLast ++
                            [({ file := hdev, event := event,
                                caps := { usagePage := caps.usagePage, usage := caps.usage,
                                          inputReportByteLength := caps.inputReportByteLength } } : Device)] }
              match buildTypeSection .Input caps.inputCaps ifc.buttonCapsOk ifc.valueCapsOk [] with
              | .error e => .error e
              | .ok m1 =>
                match buildTypeSection .Output caps.outputCaps ifc.buttonCapsOk ifc.valueCapsOk m1 with
                | .error e => .error e
                | .ok m2 =>
                  match buildTypeSection .Feature caps.featureCaps ifc.buttonCapsOk ifc.valueCapsOk m2 with
                  | .error e => .error e
                  | .ok m3 =>
                    let collection : Collection :=
                      { usage := (caps.usagePage <<< 16) ||| caps.usage, reports := m3 }
                    let st := { st with collections := st.collections ++ [collection] }
                    match routeReports st.reports hdev (m3.map (·.1)) with
                    | .error e => .error e
                    | .ok reports => .ok { st with reports := reports }

/-- The enumeration loop over all candidate interfaces. -/
def constructLoop (parentInst : Nat) : BuildState → List IfaceInput →
    Except CError BuildState
  | st, [] => .ok st
  | st, ifc :: rest =>
    match constructStep parentInst st ifc with
    | .error e => .error e
    | .ok st => constructLoop parentInst st rest

/-- `RawDevice::RawDevice (const std::string &)` (lines 109-253):
run the enumeration loop, then create the manual interrupt event. -/
def rawDeviceConstruct (parentInst : Nat) (ifaces : List IfaceInput)
    (interruptedEventHandle : Option Nat) (interruptedErr : Nat) :
    Except CError RawDevice :=
  match constructLoop parentInst {} ifaces with
  | .error e => .error e
  | .ok st =>
    match interruptedEventHandle with
    | none => .error (.systemError interruptedErr "CreateEvent")
    | some ih =>
      .ok { devices := st.devices, reports := st.reports, interruptedEvent := ih,
            vendorId := st.vendorId, productId := st.productId, name := st.name,
            collections := st.collections }

/-! ## Copy construction (`RawDevice::RawDevice (const RawDevice &)`, lines 255-290) -/

/-- The per-device loop of the copy constructor: `ReOpenFile` the file
handle and create a fresh event for each of the other device's
interfaces.  `caps` of the new record stays value-initialized and
`PrivateImpl::reports` is never touched, exactly as in the source. -/
def copyLoop (reopen newEvent : Nat → Option Nat) (reopenErr newEventErr : Nat) :
    List (Nat × Device) → List Device → Except CError (List Device)
  | [], acc => .ok acc
  | (i, _) :: rest, acc =>
    match reopen i with
    | none => .error (.systemError reopenErr "ReOpenFile")
    | some hdev =>
      match newEvent i with
      | none => .error (.systemError newEventErr "CreateEvent")
      | some event =>
        copyLoop reopen newEvent reopenErr newEventErr rest
          (acc ++ [({ file := hdev, event := event, caps := {} } : Device)])

/-- `RawDevice::RawDevice (const RawDevice &)`: copy vendor id, product
id, name and report descriptor; re-open every interface; create a new
interrupt event.  The report router (`_p->reports`) and the per-device
`caps` are left in their default (empty / zeroed) state because the
source never copies them. -/
def rawDeviceCopy (other : RawDevice) (reopen newEvent : Nat → Option Nat)
    (reopenErr newEventErr : Nat) (interruptedEventHandle : Option Nat)
    (interruptedErr : Nat) : Except CError RawDevice :=
  match copyLoop reopen newEvent reopenErr newEventErr other.devices.enum [] with
  | .error e => .error e
  | .ok devs =>
    match interruptedEventHandle with
    | none => .error (.systemError interruptedErr "CreateEvent")
    | some ih =>
      .ok { devices := devs, reports := [], interruptedEvent := ih,
            vendorId := other.vendorId, productId := other.productId,
            name := other.name, collections := other.collections }

/-! ## `RawDevice::writeReport` (lines 305-329) -/

/-- Outcome oracle for the `WriteFile` call on the routed handle:
either it returns TRUE at once, or it fails with `ERROR_IO_PENDING` and
`GetOverlappedResult (…, TRUE)` later yields `some written` or fails,
or it fails with another error code. -/
inductive WriteStart where
  | done (written : Nat)
  | pendingThen (resolved : Option Nat) (err2 : Nat)
  | failed (err : Nat)
deriving Repr, DecidableEq

structure WriteOutcome where
  result : Except CError Nat
  /-- handles a `WriteFile` was attempted on, in order (the I/O trace). -/
  writesAttempted : List Nat
deriving Repr, DecidableEq

/-- `RawDevice::writeReport`.  The source reads `report[0]` (the caller
must pass a non-empty report; every claim quantifies only over non-empty
reports, so the `headD` default is never reached under their
hypotheses). -/
def writeReport (reports : RouteMap) (report : List Nat) (start : WriteStart) :
    WriteOutcome :=
  match mapFind reports (report.headD 0) with
  | none => ⟨.error (.runtimeError "Report ID not found."), []⟩
  | some hdev =>
    match start with
    | .done written => ⟨.ok written, [hdev]⟩
    | .pendingThen (some written) _ => ⟨.ok written, [hdev]⟩
    | .pendingThen none err2 =>
      ⟨.error (.systemError err2 "GetOverlappedResult"), [hdev]⟩
    | .failed err => ⟨.error (.systemError err "WriteFile"), [hdev]⟩

/-! ## `RawDevice::readReport` (lines 331-418) -/

/-- Outcome oracle for `AsyncRead::read` (the `ReadFile` call) on one
device: completes synchronously with a byte count, stays pending
(`ERROR_IO_PENDING`), or fails with another error code. -/
inductive StartResult where
  | done (bytes : Nat)
  | pending
  | failed (err : Nat)
deriving Repr, DecidableEq

/-- Outcome oracle for `AsyncRead::finish` (the non-blocking
`GetOverlappedResult`) on one issued read. -/
inductive FinishResult where
  | ok (bytes : Nat)
  | failed (err : Nat)
deriving Repr, DecidableEq

/-- Observable actions of one `readReport` call, in program order. -/
inductive Event where
  /-- `ReadFile` issued on device `devIdx` with the caller's buffer. -/
  | issueRead (devIdx : Nat) (bufSize : Nat)
  /-- `WaitForMultipleObjects (numHandles, …, timeoutArg)`. -/
  | waitCall (timeoutArg : Nat) (numHandles : Nat)
  /-- `reads[readIdx].finish (&read)`. -/
  | finishCall (readIdx : Nat)
  /-- `CancelIoEx` requested for the pending read on device `devIdx`
  (in `AsyncRead::~AsyncRead`). -/
  | cancelRead (devIdx : Nat)
  /-- A blocking observation of the completion (or cancellation) of the
  read on device `devIdx`, e.g. `GetOverlappedResult (…, TRUE)` or a wait
  on its event after cancelling.  `readReport` never performs one. -/
  | awaitCompletion (devIdx : Nat)
  /-- `report.resize (read)`. -/
  | resize (newLen : Nat)
deriving Repr, DecidableEq

/-- One `AsyncRead` object: device index, file and event handles, and
the `pending` flag (true while an overlapped read is outstanding). -/
structure AsyncReadRec where
  devIdx : Nat
  file : Nat
  event : Nat
  pending : Bool
deriving Repr, DecidableEq

/-- `~AsyncRead` for every element of the `reads` vector: request
`CancelIoEx` for each still-pending read (and nothing more: the
destructor does not wait for the cancellation to complete). -/
def cancelEvents (reads : List AsyncReadRec) : List Event :=
  (reads.filter (·.pending)).map (fun r => .cancelRead r.devIdx)

/-- Result of the issue loop of lines 390-397. -/
inductive IssueOutcome where
  /-- some `read` returned false (synchronous completion): `goto report_read`. -/
  | shortCircuit (reads : List AsyncReadRec) (trace : List Event) (bytes : Nat)
  /-- `ReadFile` failed with a real error: `AsyncRead::read` throws. -/
  | startFailed (reads : List AsyncReadRec) (trace : List Event) (err : Nat)
  /-- the loop finished and every issued read is pending. -/
  | allPending (reads : List AsyncReadRec) (handles : List Nat) (trace : List Event)
deriving Repr, DecidableEq

/-- The `for (auto &dev: _p->devices)` loop of lines 390-397, over the
devices paired with their indices. -/
def issuePhase (bufSize : Nat) (start : Nat → StartResult) :
    List (Nat × Device) → List AsyncReadRec → List Nat → List Event → IssueOutcome
  | [], reads, handles, trace => .allPending reads handles trace
  | (idx, dev) :: rest, reads, handles, trace =>
    if bufSize < dev.caps.inputReportByteLength then
      -- skip device with reports that would not fit in the buffer
      issuePhase bufSize start rest reads handles trace
    else
      match start idx with
      | .done bytes =>
        .shortCircuit (reads ++ [⟨idx, dev.file, dev.event, false⟩])
          (trace ++ [.issueRead idx bufSize]) bytes
      | .pending =>
        issuePhase bufSize start rest (reads ++ [⟨idx, dev.file, dev.event, true⟩])
          (handles ++ [dev.event]) (trace ++ [.issueRead idx bufSize])
      | .failed err =>
        .startFailed (reads ++ [⟨idx, dev.file, dev.event, false⟩])
          (trace ++ [.issueRead idx bufSize]) err

/-- `reads[i].finish` sets `pending = false` on element `i` before
calling `GetOverlappedResult`. -/
def clearPending (reads : List AsyncReadRec) (i : Nat) : List AsyncReadRec :=
  reads.enum.map (fun p => if p.1 = i then { p.2 with pending := false } else p.2)

structure ReadOutcome where
  result : Except CError Nat
  /-- final length of the caller's `report` vector. -/
  finalBufLen : Nat
  trace : List Event
  /-- the `reads` vector at the moment its destructor runs. -/
  readsFinal : List AsyncReadRec
deriving Repr, DecidableEq

/-- `RawDevice::readReport (report, timeout)` with the native outcomes
(`ReadFile`, `WaitForMultipleObjects`, `GetOverlappedResult`) given as
oracles.  `bufSize` is `report.size ()`. -/
def readReport (dev : RawDevice) (bufSize : Nat) (timeout : Int)
    (start : Nat → StartResult) (waitRet : Nat) (waitErr : Nat)
    (finishRes : Nat → FinishResult) : ReadOutcome :=
  match issuePhase bufSize start dev.devices.enum [] [dev.interruptedEvent] [] with
  | .shortCircuit reads trace bytes =>
    -- goto report_read: resize, return; destructors cancel the pending reads
    ⟨.ok bytes, bytes, trace ++ [.resize bytes] ++ cancelEvents reads, reads⟩
  | .startFailed reads trace err =>
    ⟨.error (.systemError err "ReadFile"), bufSize, trace ++ cancelEvents reads, reads⟩
  | .allPending reads handles trace =>
    let timeoutArg := if timeout < 0 then INFINITE else timeout.toNat
    let trace := trace ++ [.waitCall timeoutArg handles.length]
    if waitRet = WAIT_OBJECT_0 ∨ waitRet = WAIT_TIMEOUT then
      -- interrupted, or the timeout elapsed: return 0 without resizing
      ⟨.ok 0, bufSize, trace ++ cancelEvents reads, reads⟩
    else if waitRet = WAIT_FAILED then
      ⟨.error (.systemError waitErr "WaitForMultipleObject"), bufSize,
        trace ++ cancelEvents reads, reads⟩
    else
      -- i = ret-WAIT_OBJECT_0-1 (DWORD, so the source's `i < 0` test is always false)
      let i := waitRet - WAIT_OBJECT_0 - 1
      if reads.length ≤ i then
        ⟨.error (.runtimeError "Unexpected return value from WaitForMultipleObject"),
          bufSize, trace ++ cancelEvents reads, reads⟩
      else
        let readsF := clearPending reads i
        match finishRes i with
        | .ok bytes =>
          ⟨.ok bytes, bytes,
            trace ++ [.finishCall i, .resize bytes] ++ cancelEvents readsF, readsF⟩
        | .failed err =>
          ⟨.error (.systemError err "GetOverlappedResult"), bufSize,
            trace ++ [.finishCall i] ++ cancelEvents readsF, readsF⟩

/-! # Theorems -/

/-! ## C10: flag projections come in complementary pairs -/

/-- C10: for every bit pattern of `ReportField::Flags::bits`, `isData`
holds iff `isConstant` does not, and `isArray` holds iff `isVariable`
does not. -/
theorem flags_complementary_pairs (bits : Nat) :
    isData bits = !isConstant bits ∧ isArray bits = !isVariable bits := by
  refine ⟨?_, ?_⟩ <;> simp [isData, isConstant, isArray, isVariable, bne]

/-! ## C4: unknown report id fails with no I/O -/

/-- C4: for every non-empty report whose first byte is not a key of the
router, `writeReport` throws `"Report ID not found."` (the source's
`UnknownReportError`) and attempts no write on any interface handle. -/
theorem writeReport_unknown_id (reports : RouteMap) (report : List Nat)
    (start : WriteStart) (hne : report ≠ [])
    (hmiss : mapFind reports (report.headD 0) = none) :
    writeReport reports report start =
      ⟨.error (.runtimeError "Report ID not found."), []⟩ := by
  simp only [writeReport, List.headD_eq_head?_getD] at hmiss ⊢
  rw [hmiss]

/-- Witness for `writeReport_unknown_id` at a concrete router and report. -/
theorem writeReport_unknown_id_witness :
    ([2, 0] : List Nat) ≠ [] ∧
    mapFind [(1, 100)] (([2, 0] : List Nat).headD 0) = none ∧
    writeReport [(1, 100)] [2, 0] (.done 2) =
      ⟨.error (.runtimeError "Report ID not found."), []⟩ :=
  ⟨by decide, by decide,
   writeReport_unknown_id [(1, 100)] [2, 0] (.done 2) (by decide) (by decide)⟩

/-! ## C7: the button/value capability merge -/

theorem mergeByDataIndex_length : ∀ (A B : List HidCap),
    (mergeByDataIndex A B).length = A.length + B.length := by
  intro A
  induction A with
  | nil => intro B; cases B <;> simp [mergeByDataIndex]
  | cons b bs ih =>
    intro B
    induction B with
    | nil => simp [mergeByDataIndex]
    | cons v vs ihB =>
      rw [mergeByDataIndex]
      split
      · simp only [List.length_cons, ih (v :: vs)]; omega
      · simp only [List.length_cons, ihB]; omega

theorem mergeByDataIndex_mem : ∀ (A B : List HidCap) (x : HidCap),
    x ∈ mergeByDataIndex A B ↔ x ∈ A ∨ x ∈ B := by
  intro A
  induction A with
  | nil => intro B x; cases B <;> simp [mergeByDataIndex]
  | cons b bs ih =>
    intro B
    induction B with
    | nil => intro x; simp [mergeByDataIndex]
    | cons v vs ihB =>
      intro x
      rw [mergeByDataIndex]
      split
      · simp only [List.mem_cons, ih (v :: vs) x]
        tauto
      · simp only [List.mem_cons, ihB x]
        tauto

theorem mergeByDataIndex_sorted : ∀ (A B : List HidCap),
    List.Sorted capLE A → List.Sorted capLE B →
    List.Sorted capLE (mergeByDataIndex A B) := by
  intro A
  induction A with
  | nil => intro B hA hB; cases B <;> simp_all [mergeByDataIndex, List.sorted_cons]
  | cons b bs ih =>
    intro B
    induction B with
    | nil => intro hA _; simpa [mergeByDataIndex] using hA
    | cons v vs ihB =>
      intro hA hB
      rw [mergeByDataIndex]
      split
      next hlt =>
        rw [List.sorted_cons]
        refine ⟨?_, ih (v :: vs) (List.sorted_cons.1 hA).2 hB⟩
        intro y hy
        rcases (mergeByDataIndex_mem bs (v :: vs) y).1 hy with h1 | h1
        · exact (List.sorted_cons.1 hA).1 y h1
        · rcases List.mem_cons.1 h1 with rfl | h2
          · exact Nat.le_of_lt hlt
          · exact Nat.le_trans (Nat.le_of_lt hlt) ((List.sorted_cons.1 hB).1 y h2)
      next hge =>
        rw [List.sorted_cons]
        refine ⟨?_, ihB hA (List.sorted_cons.1 hB).2⟩
        intro y hy
        rcases (mergeByDataIndex_mem (b :: bs) vs y).1 hy with h1 | h1
        · rcases List.mem_cons.1 h1 with rfl | h2
          · exact Nat.le_of_not_lt hge
          · exact Nat.le_trans (Nat.le_of_not_lt hge) ((List.sorted_cons.1 hA).1 y h2)
        · exact (List.sorted_cons.1 hB).1 y h1

theorem sublist_mergeByDataIndex_left : ∀ (A B : List HidCap),
    A.Sublist (mergeByDataIndex A B) := by
  intro A
  induction A with
  | nil => intro B; cases B <;> simp [mergeByDataIndex]
  | cons b bs ih =>
    intro B
    induction B with
    | nil => rw [mergeByDataIndex]
    | cons v vs ihB =>
      rw [mergeByDataIndex]
      split
      · exact (ih (v :: vs)).cons₂ b
      · exact ihB.cons v

theorem sublist_mergeByDataIndex_right : ∀ (A B : List HidCap),
    B.Sublist (mergeByDataIndex A B) := by
  intro A
  induction A with
  | nil => intro B; cases B <;> simp [mergeByDataIndex]
  | cons b bs ih =>
    intro B
    induction B with
    | nil => simp [mergeByDataIndex]
    | cons v vs ihB =>
      rw [mergeByDataIndex]
      split
      · exact (ih (v :: vs)).cons b
      · exact ihB.cons₂ v

theorem bucketOf_emplacePush (k k2 : ReportID) (f : ReportField) :
    ∀ (m : ReportMap), bucketOf (emplacePush m k f) k2 =
      if k = k2 then bucketOf m k2 ++ [f] else bucketOf m k2 := by
  intro m
  induction m with
  | nil =>
    by_cases h : k = k2 <;> simp [emplacePush, bucketOf, h]
  | cons p rest ih =>
    obtain ⟨k0, fs⟩ := p
    by_cases h0 : k0 = k
    · subst h0
      by_cases h2 : k0 = k2 <;> simp [emplacePush, bucketOf, h2]
    · by_cases h2 : k0 = k2
      · subst h2
        have hk : k ≠ k0 := fun hh => h0 hh.symm
        simp [emplacePush, bucketOf, h0, hk]
      · simp [emplacePush, bucketOf, h0, h2, ih]

theorem bucketOf_addFields (t : ReportType) : ∀ (caps : List HidCap) (m : ReportMap) (r : Nat),
    bucketOf (addFields t m caps) ⟨t, r⟩ =
      bucketOf m ⟨t, r⟩ ++ (caps.filter (fun c => c.reportID == r)).map capToField := by
  intro caps
  induction caps with
  | nil => intro m r; simp [addFields]
  | cons c cs ih =>
    intro m r
    have hstep : addFields t m (c :: cs) =
        addFields t (emplacePush m ⟨t, c.reportID⟩ (capToField c)) cs := by
      simp [addFields]
    rw [hstep, ih, bucketOf_emplacePush]
    by_cases h : c.reportID = r
    · simp [h, List.filter_cons]
    · have : (⟨t, c.reportID⟩ : ReportID) ≠ ⟨t, r⟩ := by
        intro hh
        exact h (congrArg ReportID.id hh)
      simp [this, List.filter_cons, h]

/-- C7: merging two capability lists, each sorted ascending by internal
data index, yields the ascending, stable merge: the length is `A+B`, the
result is ascending in data index, each input is a subsequence of it
(never re-sorted), and every `(reportType, reportId)` bucket built from
the merged list is exactly the in-order (hence ascending, stable)
restriction of the merged list to that report id. -/
theorem merged_fields_ascending_stable (A B : List HidCap) (t : ReportType)
    (hA : List.Sorted capLE A) (hB : List.Sorted capLE B) :
    (mergeByDataIndex A B).length = A.length + B.length ∧
    List.Sorted capLE (mergeByDataIndex A B) ∧
    A.Sublist (mergeByDataIndex A B) ∧
    B.Sublist (mergeByDataIndex A B) ∧
    (∀ r : Nat,
      bucketOf (addFields t [] (mergeByDataIndex A B)) ⟨t, r⟩ =
        ((mergeByDataIndex A B).filter (fun c => c.reportID == r)).map capToField) ∧
    (∀ r : Nat,
      List.Sorted capLE ((mergeByDataIndex A B).filter (fun c => c.reportID == r))) := by
  refine ⟨mergeByDataIndex_length A B, mergeByDataIndex_sorted A B hA hB,
    sublist_mergeByDataIndex_left A B, sublist_mergeByDataIndex_right A B, ?_, ?_⟩
  · intro r
    rw [bucketOf_addFields]
    simp [bucketOf]
  · intro r
    exact (mergeByDataIndex_sorted A B hA hB).filter _

/-- Witness for `merged_fields_ascending_stable` on concrete sorted
capability lists. -/
theorem merged_fields_ascending_stable_witness :
    List.Sorted capLE [⟨1, 2, false, 1, 0, 0, 5, 0⟩, ⟨1, 2, false, 1, 0, 0, 6, 3⟩] ∧
    List.Sorted capLE [⟨1, 0, false, 1, 0, 0, 7, 1⟩, ⟨2, 0, false, 1, 0, 0, 8, 2⟩] ∧
    ((mergeByDataIndex [⟨1, 2, false, 1, 0, 0, 5, 0⟩, ⟨1, 2, false, 1, 0, 0, 6, 3⟩]
        [⟨1, 0, false, 1, 0, 0, 7, 1⟩, ⟨2, 0, false, 1, 0, 0, 8, 2⟩]).length = 2 + 2 ∧
      List.Sorted capLE (mergeByDataIndex [⟨1, 2, false, 1, 0, 0, 5, 0⟩, ⟨1, 2, false, 1, 0, 0, 6, 3⟩]
        [⟨1, 0, false, 1, 0, 0, 7, 1⟩, ⟨2, 0, false, 1, 0, 0, 8, 2⟩]) ∧
      List.Sublist [⟨1, 2, false, 1, 0, 0, 5, 0⟩, ⟨1, 2, false, 1, 0, 0, 6, 3⟩]
        (mergeByDataIndex [⟨1, 2, false, 1, 0, 0, 5, 0⟩, ⟨1, 2, false, 1, 0, 0, 6, 3⟩]
          [⟨1, 0, false, 1, 0, 0, 7, 1⟩, ⟨2, 0, false, 1, 0, 0, 8, 2⟩]) ∧
      List.Sublist [⟨1, 0, false, 1, 0, 0, 7, 1⟩, ⟨2, 0, false, 1, 0, 0, 8, 2⟩]
        (mergeByDataIndex [⟨1, 2, false, 1, 0, 0, 5, 0⟩, ⟨1, 2, false, 1, 0, 0, 6, 3⟩]
          [⟨1, 0, false, 1, 0, 0, 7, 1⟩, ⟨2, 0, false, 1, 0, 0, 8, 2⟩]) ∧
      (∀ r : Nat,
        bucketOf (addFields .Input []
            (mergeByDataIndex [⟨1, 2, false, 1, 0, 0, 5, 0⟩, ⟨1, 2, false, 1, 0, 0, 6, 3⟩]
              [⟨1, 0, false, 1, 0, 0, 7, 1⟩, ⟨2, 0, false, 1, 0, 0, 8, 2⟩])) ⟨.Input, r⟩ =
          ((mergeByDataIndex [⟨1, 2, false, 1, 0, 0, 5, 0⟩, ⟨1, 2, false, 1, 0, 0, 6, 3⟩]
              [⟨1, 0, false, 1, 0, 0, 7, 1⟩, ⟨2, 0, false, 1, 0, 0, 8, 2⟩]).filter
            (fun c => c.reportID == r)).map capToField) ∧
      (∀ r : Nat,
        List.Sorted capLE
          ((mergeByDataIndex [⟨1, 2, false, 1, 0, 0, 5, 0⟩, ⟨1, 2, false, 1, 0, 0, 6, 3⟩]
              [⟨1, 0, false, 1, 0, 0, 7, 1⟩, ⟨2, 0, false, 1, 0, 0, 8, 2⟩]).filter
            (fun c => c.reportID == r)))) :=
  ⟨by decide, by decide,
   merged_fields_ascending_stable _ _ .Input (by decide) (by decide)⟩

/-! ## Helper lemmas about the issue loop, cancellation and `clearPending` -/

def IssueOutcome.readsOf : IssueOutcome → List AsyncReadRec
  | .shortCircuit reads _ _ => reads
  | .startFailed reads _ _ => reads
  | .allPending reads _ _ => reads

def IssueOutcome.traceOf : IssueOutcome → List Event
  | .shortCircuit _ tr _ => tr
  | .startFailed _ tr _ => tr
  | .allPending _ _ tr => tr

theorem issuePhase_allPending_lengths (bufSize : Nat) (start : Nat → StartResult) :
    ∀ (dl : List (Nat × Device)) (reads : List AsyncReadRec) (handles : List Nat)
      (trace : List Event) (r : List AsyncReadRec) (h : List Nat) (t : List Event),
      issuePhase bufSize start dl reads handles trace = .allPending r h t →
      h.length + reads.length = r.length + handles.length := by
  intro dl
  induction dl with
  | nil =>
    intro reads handles trace r h t heq
    simp only [issuePhase, IssueOutcome.allPending.injEq] at heq
    obtain ⟨h1, h2, h3⟩ := heq
    subst h1; subst h2
    omega
  | cons p rest ih =>
    obtain ⟨idx, dev⟩ := p
    intro reads handles trace r h t heq
    simp only [issuePhase] at heq
    split at heq
    · exact ih reads handles trace r h t heq
    · split at heq
      · cases heq
      · have := ih _ _ _ _ _ _ heq
        simp only [List.length_append, List.length_cons, List.length_nil] at this
        omega
      · cases heq

theorem issuePhase_reads_fit (devs : List Device) (bufSize : Nat)
    (start : Nat → StartResult) :
    ∀ (dl : List (Nat × Device)) (reads : List AsyncReadRec) (handles : List Nat)
      (trace : List Event),
      (∀ p ∈ dl, devs[p.1]? = some p.2) →
      (∀ r ∈ reads, ∃ d, devs[r.devIdx]? = some d ∧ d.caps.inputReportByteLength ≤ bufSize) →
      ∀ r ∈ (issuePhase bufSize start dl reads handles trace).readsOf,
        ∃ d, devs[r.devIdx]? = some d ∧ d.caps.inputReportByteLength ≤ bufSize := by
  intro dl
  induction dl with
  | nil =>
    intro reads handles trace _ hreads r hr
    exact hreads r hr
  | cons p rest ih =>
    obtain ⟨idx, dev⟩ := p
    intro reads handles trace hdl hreads r hr
    have hhead : devs[idx]? = some dev := hdl (idx, dev) (List.mem_cons_self _ _)
    have htail : ∀ p ∈ rest, devs[p.1]? = some p.2 :=
      fun p hp => hdl p (List.mem_cons_of_mem _ hp)
    simp only [issuePhase] at hr
    split at hr
    · exact ih reads handles trace htail hreads r hr
    next hfit =>
      have hle : dev.caps.inputReportByteLength ≤ bufSize := Nat.le_of_not_lt hfit
      split at hr
      · simp only [IssueOutcome.readsOf] at hr
        rcases List.mem_append.1 hr with h1 | h1
        · exact hreads r h1
        · rcases List.mem_singleton.1 h1 with rfl
          exact ⟨dev, hhead, hle⟩
      · refine ih _ _ _ htail ?_ r hr
        intro r2 hr2
        rcases List.mem_append.1 hr2 with h1 | h1
        · exact hreads r2 h1
        · rcases List.mem_singleton.1 h1 with rfl
          exact ⟨dev, hhead, hle⟩
      · simp only [IssueOutcome.readsOf] at hr
        rcases List.mem_append.1 hr with h1 | h1
        · exact hreads r h1
        · rcases List.mem_singleton.1 h1 with rfl
          exact ⟨dev, hhead, hle⟩

theorem issuePhase_allPending_exact (bufSize : Nat) (start : Nat → StartResult) :
    ∀ (dl : List (Nat × Device)) (reads : List AsyncReadRec) (handles : List Nat)
      (trace : List Event) (r : List AsyncReadRec) (h : List Nat) (t : List Event),
      issuePhase bufSize start dl reads handles trace = .allPending r h t →
      r.map (·.devIdx) = reads.map (·.devIdx) ++
        (dl.filter (fun p => p.2.caps.inputReportByteLength ≤ bufSize)).map (·.1) := by
  intro dl
  induction dl with
  | nil =>
    intro reads handles trace r h t heq
    simp only [issuePhase, IssueOutcome.allPending.injEq] at heq
    obtain ⟨h1, _, _⟩ := heq
    subst h1
    simp
  | cons p rest ih =>
    obtain ⟨idx, dev⟩ := p
    intro reads handles trace r h t heq
    simp only [issuePhase] at heq
    split at heq
    next hskip =>
      have hfil : decide (dev.caps.inputReportByteLength ≤ bufSize) = false := by
        simp; omega
      rw [ih _ _ _ _ _ _ heq, List.filter_cons]
      simp [hfil]
    next hfit =>
      have hfil : decide (dev.caps.inputReportByteLength ≤ bufSize) = true := by
        simp; omega
      split at heq
      · cases heq
      · rw [ih _ _ _ _ _ _ heq, List.filter_cons]
        simp [hfil]
      · cases heq

theorem issuePhase_trace_issueOnly (bufSize : Nat) (start : Nat → StartResult) :
    ∀ (dl : List (Nat × Device)) (reads : List AsyncReadRec) (handles : List Nat)
      (trace : List Event),
      (∀ e ∈ trace, ∃ i n, e = Event.issueRead i n) →
      ∀ e ∈ (issuePhase bufSize start dl reads handles trace).traceOf,
        ∃ i n, e = Event.issueRead i n := by
  intro dl
  induction dl with
  | nil =>
    intro reads handles trace htr e he
    exact htr e he
  | cons p rest ih =>
    obtain ⟨idx, dev⟩ := p
    intro reads handles trace htr e he
    have hext : ∀ e ∈ trace ++ [Event.issueRead idx bufSize], ∃ i n, e = Event.issueRead i n := by
      intro e2 he2
      rcases List.mem_append.1 he2 with h1 | h1
      · exact htr e2 h1
      · rcases List.mem_singleton.1 h1 with rfl
        exact ⟨idx, bufSize, rfl⟩
    simp only [issuePhase] at he
    split at he
    · exact ih reads handles trace htr e he
    · split at he
      · simp only [IssueOutcome.traceOf] at he
        exact hext e he
      · exact ih _ _ _ hext e he
      · simp only [IssueOutcome.traceOf] at he
        exact hext e he

theorem cancelEvents_shape (reads : List AsyncReadRec) :
    ∀ e ∈ cancelEvents reads, ∃ i, e = Event.cancelRead i := by
  intro e he
  obtain ⟨r, _, heq⟩ := List.mem_map.1 he
  exact ⟨r.devIdx, heq.symm⟩

theorem cancelEvents_mem (reads : List AsyncReadRec) (r : AsyncReadRec)
    (hr : r ∈ reads) (hp : r.pending = true) :
    Event.cancelRead r.devIdx ∈ cancelEvents reads := by
  exact List.mem_map.2 ⟨r, List.mem_filter.2 ⟨hr, by simp [hp]⟩, rfl⟩

theorem clearPending_mem (reads : List AsyncReadRec) (i : Nat) (r : AsyncReadRec)
    (hr : r ∈ clearPending reads i) : ∃ r0 ∈ reads, r.devIdx = r0.devIdx := by
  unfold clearPending at hr
  obtain ⟨⟨j, r0⟩, hmem, heq⟩ := List.mem_map.1 hr
  have hr0 : r0 ∈ reads := by
    have := List.mem_enum_iff_getElem?.1 hmem
    exact List.getElem?_mem this
  refine ⟨r0, hr0, ?_⟩
  rw [← heq]
  split <;> rfl

/-! ## C1: the three wait outcomes -/

/-- C1: when `readReport` reaches the wait state (the issue loop finished
with every issued read pending), the wait dispatch yields exactly the
three outcomes: timeout → return 0 with the buffer untouched (no report
delivered); interrupt (`WAIT_OBJECT_0`) → return 0; completion of issued
read `i` → query its transferred count, truncate the buffer to it and
return it.  A negative timeout makes the wait use `INFINITE`.  The bound
`handles.length ≤ 64` is `MAXIMUM_WAIT_OBJECTS`, the most handles
`WaitForMultipleObjects` accepts. -/
theorem readReport_wait_outcomes (dev : RawDevice) (bufSize : Nat) (timeout : Int)
    (start : Nat → StartResult) (waitErr : Nat) (finishRes : Nat → FinishResult)
    (reads : List AsyncReadRec) (handles : List Nat) (trace : List Event)
    (hip : issuePhase bufSize start dev.devices.enum [] [dev.interruptedEvent] [] =
      .allPending reads handles trace)
    (hcap : handles.length ≤ 64) :
    ((readReport dev bufSize timeout start WAIT_TIMEOUT waitErr finishRes).result = .ok 0 ∧
     (readReport dev bufSize timeout start WAIT_TIMEOUT waitErr finishRes).finalBufLen = bufSize) ∧
    ((readReport dev bufSize timeout start WAIT_OBJECT_0 waitErr finishRes).result = .ok 0 ∧
     (readReport dev bufSize timeout start WAIT_OBJECT_0 waitErr finishRes).finalBufLen = bufSize) ∧
    (∀ i n, i < reads.length → finishRes i = .ok n →
      (readReport dev bufSize timeout start (WAIT_OBJECT_0 + 1 + i) waitErr finishRes).result = .ok n ∧
      (readReport dev bufSize timeout start (WAIT_OBJECT_0 + 1 + i) waitErr finishRes).finalBufLen = n) ∧
    (timeout < 0 →
      Event.waitCall INFINITE handles.length ∈
        (readReport dev bufSize timeout start WAIT_TIMEOUT waitErr finishRes).trace) := by
  have hlen : handles.length = reads.length + 1 := by
    have := issuePhase_allPending_lengths bufSize start _ _ _ _ _ _ _ hip
    simpa using this
  refine ⟨?_, ?_, ?_, ?_⟩
  · constructor <;> simp [readReport, hip, WAIT_TIMEOUT, WAIT_OBJECT_0]
  · constructor <;> simp [readReport, hip, WAIT_OBJECT_0, WAIT_TIMEOUT]
  · intro i n hi hfin
    have hni : WAIT_OBJECT_0 + 1 + i = 1 + i := by simp [WAIT_OBJECT_0]
    have h1 : ¬(1 + i = WAIT_OBJECT_0 ∨ 1 + i = WAIT_TIMEOUT) := by
      simp only [WAIT_OBJECT_0, WAIT_TIMEOUT]
      omega
    have h2 : ¬(1 + i = WAIT_FAILED) := by
      simp only [WAIT_FAILED]
      omega
    have h3 : ¬(reads.length ≤ 1 + i - WAIT_OBJECT_0 - 1) := by
      simp only [WAIT_OBJECT_0]
      omega
    have h4 : 1 + i - WAIT_OBJECT_0 - 1 = i := by
      simp only [WAIT_OBJECT_0]
      omega
    have h5 : ¬(reads.length ≤ i) := Nat.not_le.2 hi
    rw [hni]
    constructor <;> simp [readReport, hip, h1, h2, h3, h4, h5, hfin]
  · intro hneg
    have : ¬((258 : Nat) = 0) := by omega
    simp [readReport, hip, WAIT_TIMEOUT, WAIT_OBJECT_0, this, hneg, INFINITE]

/-- Concrete two-interface device (input report lengths 7 and 16), used
as a test fixture by several witnesses. -/
def wdev2 : RawDevice :=
  { devices := [⟨100, 101, ⟨1, 2, 7⟩⟩, ⟨110, 111, ⟨1, 2, 16⟩⟩], reports := [(1, 100)],
    interruptedEvent := 50, vendorId := 0, productId := 0, name := "", collections := [] }

/-- Concrete one-interface device (input report length 7). -/
def wdev1 : RawDevice :=
  { devices := [⟨100, 101, ⟨1, 2, 7⟩⟩], reports := [], interruptedEvent := 50,
    vendorId := 0, productId := 0, name := "", collections := [] }

/-- Witness for `readReport_wait_outcomes`: a device with two interfaces
(input lengths 7 and 16) and a 16-byte buffer issues pending reads on
both and the three dispatch outcomes behave as stated. -/
theorem readReport_wait_outcomes_witness :
    (issuePhase 16 (fun _ => .pending) wdev2.devices.enum [] [wdev2.interruptedEvent] [] =
      .allPending [⟨0, 100, 101, true⟩, ⟨1, 110, 111, true⟩] [50, 101, 111]
        [.issueRead 0 16, .issueRead 1 16]) ∧
    ([50, 101, 111] : List Nat).length ≤ 64 ∧
    (((readReport wdev2 16 (-1) (fun _ => .pending) WAIT_TIMEOUT 0 (fun _ => .ok 16)).result = .ok 0 ∧
      (readReport wdev2 16 (-1) (fun _ => .pending) WAIT_TIMEOUT 0 (fun _ => .ok 16)).finalBufLen = 16) ∧
     ((readReport wdev2 16 (-1) (fun _ => .pending) WAIT_OBJECT_0 0 (fun _ => .ok 16)).result = .ok 0 ∧
      (readReport wdev2 16 (-1) (fun _ => .pending) WAIT_OBJECT_0 0 (fun _ => .ok 16)).finalBufLen = 16) ∧
     (∀ i n, i < ([⟨0, 100, 101, true⟩, ⟨1, 110, 111, true⟩] : List AsyncReadRec).length →
       (fun _ => FinishResult.ok 16) i = .ok n →
       (readReport wdev2 16 (-1) (fun _ => .pending) (WAIT_OBJECT_0 + 1 + i) 0
         (fun _ => .ok 16)).result = .ok n ∧
       (readReport wdev2 16 (-1) (fun _ => .pending) (WAIT_OBJECT_0 + 1 + i) 0
         (fun _ => .ok 16)).finalBufLen = n) ∧
     ((-1 : Int) < 0 →
       Event.waitCall INFINITE ([50, 101, 111] : List Nat).length ∈
         (readReport wdev2 16 (-1) (fun _ => .pending) WAIT_TIMEOUT 0 (fun _ => .ok 16)).trace)) :=
  ⟨by decide, by decide,
   readReport_wait_outcomes wdev2 16 (-1) (fun _ => .pending) 0 (fun _ => .ok 16)
     [⟨0, 100, 101, true⟩, ⟨1, 110, 111, true⟩] [50, 101, 111]
     [.issueRead 0 16, .issueRead 1 16] (by decide) (by decide)⟩

/-! ## C9: wait failure and impossible wait indices -/

/-- C9: once the wait state is reached, `WAIT_FAILED` makes `readReport`
fail with a `system_error` carrying the native code from `GetLastError`
(the spec's `IOError`), and any other wait result whose derived index is
outside the issued reads fails with the `"Unexpected return value"`
`runtime_error` (the spec's `InvariantViolation`) — in particular it
never returns a byte count. -/
theorem readReport_wait_failure_loud (dev : RawDevice) (bufSize : Nat) (timeout : Int)
    (start : Nat → StartResult) (waitErr : Nat) (finishRes : Nat → FinishResult)
    (reads : List AsyncReadRec) (handles : List Nat) (trace : List Event)
    (hip : issuePhase bufSize start dev.devices.enum [] [dev.interruptedEvent] [] =
      .allPending reads handles trace) :
    ((readReport dev bufSize timeout start WAIT_FAILED waitErr finishRes).result =
      .error (.systemError waitErr "WaitForMultipleObject")) ∧
    (∀ waitRet, waitRet ≠ WAIT_OBJECT_0 → waitRet ≠ WAIT_TIMEOUT → waitRet ≠ WAIT_FAILED →
      reads.length ≤ waitRet - WAIT_OBJECT_0 - 1 →
      (readReport dev bufSize timeout start waitRet waitErr finishRes).result =
        .error (.runtimeError "Unexpected return value from WaitForMultipleObject") ∧
      ∀ n, (readReport dev bufSize timeout start waitRet waitErr finishRes).result ≠ .ok n) := by
  constructor
  · have h1 : ¬(WAIT_FAILED = WAIT_OBJECT_0 ∨ WAIT_FAILED = WAIT_TIMEOUT) := by
      simp [WAIT_FAILED, WAIT_OBJECT_0, WAIT_TIMEOUT]
    simp [readReport, hip, h1]
  · intro waitRet hr0 hr258 hrf hidx
    have h1 : ¬(waitRet = WAIT_OBJECT_0 ∨ waitRet = WAIT_TIMEOUT) := by
      rintro (h | h) <;> [exact hr0 h; exact hr258 h]
    have heq : (readReport dev bufSize timeout start waitRet waitErr finishRes).result =
        .error (.runtimeError "Unexpected return value from WaitForMultipleObject") := by
      simp [readReport, hip, h1, hrf, hidx]
    refine ⟨heq, ?_⟩
    intro n
    rw [heq]
    intro h
    cases h

/-- Witness for `readReport_wait_failure_loud` at a concrete device and
an out-of-range wait result. -/
theorem readReport_wait_failure_loud_witness :
    (issuePhase 16 (fun _ => .pending) wdev1.devices.enum [] [wdev1.interruptedEvent] [] =
      .allPending [⟨0, 100, 101, true⟩] [50, 101] [.issueRead 0 16]) ∧
    ((readReport wdev1 16 0 (fun _ => .pending) WAIT_FAILED 33 (fun _ => .ok 0)).result =
      .error (.systemError 33 "WaitForMultipleObject")) ∧
    ((5 : Nat) ≠ WAIT_OBJECT_0 ∧ (5 : Nat) ≠ WAIT_TIMEOUT ∧ (5 : Nat) ≠ WAIT_FAILED ∧
      ([⟨0, 100, 101, true⟩] : List AsyncReadRec).length ≤ 5 - WAIT_OBJECT_0 - 1) ∧
    ((readReport wdev1 16 0 (fun _ => .pending) 5 33 (fun _ => .ok 0)).result =
      .error (.runtimeError "Unexpected return value from WaitForMultipleObject") ∧
      ∀ n, (readReport wdev1 16 0 (fun _ => .pending) 5 33 (fun _ => .ok 0)).result ≠ .ok n) :=
  ⟨by decide,
   (readReport_wait_failure_loud wdev1 16 0 (fun _ => .pending) 33 (fun _ => .ok 0)
     [⟨0, 100, 101, true⟩] [50, 101] [.issueRead 0 16] (by decide)).1,
   ⟨by decide, by decide, by decide, by decide⟩,
   (readReport_wait_failure_loud wdev1 16 0 (fun _ => .pending) 33 (fun _ => .ok 0)
     [⟨0, 100, 101, true⟩] [50, 101] [.issueRead 0 16] (by decide)).2 5
     (by decide) (by decide) (by decide) (by decide)⟩

/-! ## C2: which interfaces get a read issued, and synchronous short-circuit -/

/-- C2: (a) in every outcome, every `AsyncRead` that was created targets
an interface whose maximum input-report length fits the caller's buffer
(unfit interfaces are never attempted); (b) when the issue loop runs to
completion with all reads pending, the issued reads are exactly the
fitting interfaces, in interface order; (c) when an issued read completes
synchronously the call skips the wait entirely (no wait call appears in
the trace) and immediately returns the transferred count with the buffer
truncated to it. -/
theorem readReport_issues_fitting_only (dev : RawDevice) (bufSize : Nat) (timeout : Int)
    (start : Nat → StartResult) (waitRet waitErr : Nat) (finishRes : Nat → FinishResult) :
    (∀ r ∈ (readReport dev bufSize timeout start waitRet waitErr finishRes).readsFinal,
      ∃ d, dev.devices[r.devIdx]? = some d ∧ d.caps.inputReportByteLength ≤ bufSize) ∧
    (∀ reads handles trace,
      issuePhase bufSize start dev.devices.enum [] [dev.interruptedEvent] [] =
        .allPending reads handles trace →
      reads.map (·.devIdx) =
        (dev.devices.enum.filter (fun p => p.2.caps.inputReportByteLength ≤ bufSize)).map (·.1)) ∧
    (∀ reads trace bytes,
      issuePhase bufSize start dev.devices.enum [] [dev.interruptedEvent] [] =
        .shortCircuit reads trace bytes →
      (readReport dev bufSize timeout start waitRet waitErr finishRes).result = .ok bytes ∧
      (readReport dev bufSize timeout start waitRet waitErr finishRes).finalBufLen = bytes ∧
      ∀ a b, Event.waitCall a b ∉
        (readReport dev bufSize timeout start waitRet waitErr finishRes).trace) := by
  have base := issuePhase_reads_fit dev.devices bufSize start dev.devices.enum []
    [dev.interruptedEvent] [] (fun p hp => List.mem_enum_iff_getElem?.1 hp) (by simp)
  refine ⟨?_, ?_, ?_⟩
  · cases hip : issuePhase bufSize start dev.devices.enum [] [dev.interruptedEvent] [] with
    | shortCircuit reads tr bytes =>
      rw [hip] at base
      simpa [readReport, hip, IssueOutcome.readsOf] using base
    | startFailed reads tr err =>
      rw [hip] at base
      simpa [readReport, hip, IssueOutcome.readsOf] using base
    | allPending reads handles tr =>
      rw [hip] at base
      simp only [IssueOutcome.readsOf] at base
      intro r hr
      simp only [readReport, hip] at hr
      split at hr
      · exact base r hr
      · split at hr
        · exact base r hr
        · split at hr
          · exact base r hr
          · split at hr <;>
              · simp only at hr
                obtain ⟨r0, hr0, hdeq⟩ := clearPending_mem _ _ _ hr
                obtain ⟨d, hd, hfit⟩ := base r0 hr0
                exact ⟨d, by rw [hdeq]; exact hd, hfit⟩
  · intro reads handles trace hip
    have := issuePhase_allPending_exact bufSize start dev.devices.enum [] [dev.interruptedEvent]
      [] reads handles trace hip
    simpa using this
  · intro reads trace bytes hip
    have htr : ∀ e ∈ trace, ∃ i n, e = Event.issueRead i n := by
      have := issuePhase_trace_issueOnly bufSize start dev.devices.enum [] [dev.interruptedEvent]
        [] (by simp)
      rw [hip] at this
      exact this
    refine ⟨by simp [readReport, hip], by simp [readReport, hip], ?_⟩
    intro a b hmem
    simp only [readReport, hip] at hmem
    rcases List.mem_append.1 hmem with h1 | h1
    · rcases List.mem_append.1 h1 with h2 | h2
      · obtain ⟨i, n, heq⟩ := htr _ h2
        cases heq
      · rcases List.mem_singleton.1 h2 with heq
        cases heq
    · obtain ⟨i, heq⟩ := cancelEvents_shape reads _ h1
      cases heq

/-- Witness for `readReport_issues_fitting_only`: with an 8-byte buffer
only the 7-byte interface of `wdev2` is issued; with a 16-byte buffer and
a synchronous completion on interface 0 the call returns at once. -/
theorem readReport_issues_fitting_only_witness :
    (∃ d, wdev2.devices[(0 : Nat)]? = some d ∧ d.caps.inputReportByteLength ≤ 8) ∧
    (([⟨0, 100, 101, true⟩] : List AsyncReadRec).map (·.devIdx) =
      (wdev2.devices.enum.filter (fun p => p.2.caps.inputReportByteLength ≤ 8)).map (·.1)) ∧
    ((readReport wdev2 16 100 (fun i => if i = 0 then .done 7 else .pending) WAIT_TIMEOUT 0
        (fun _ => .ok 0)).result = .ok 7 ∧
      (readReport wdev2 16 100 (fun i => if i = 0 then .done 7 else .pending) WAIT_TIMEOUT 0
        (fun _ => .ok 0)).finalBufLen = 7 ∧
      ∀ a b, Event.waitCall a b ∉
        (readReport wdev2 16 100 (fun i => if i = 0 then .done 7 else .pending) WAIT_TIMEOUT 0
          (fun _ => .ok 0)).trace) :=
  ⟨(readReport_issues_fitting_only wdev2 8 0 (fun _ => .pending) WAIT_TIMEOUT 0
      (fun _ => .ok 0)).1 ⟨0, 100, 101, true⟩ (by decide),
   (readReport_issues_fitting_only wdev2 8 0 (fun _ => .pending) WAIT_TIMEOUT 0
      (fun _ => .ok 0)).2.1 [⟨0, 100, 101, true⟩] [50, 101] [.issueRead 0 8] (by decide),
   (readReport_issues_fitting_only wdev2 16 100 (fun i => if i = 0 then .done 7 else .pending)
      WAIT_TIMEOUT 0 (fun _ => .ok 0)).2.2 [⟨0, 100, 101, false⟩] [.issueRead 0 16] 7 (by decide)⟩

/-! ## C3: cancellation on every exit path, but never awaited -/

/-- Every `readReport` trace is some prefix of issue/wait/finish/resize
events followed by exactly the `CancelIoEx` requests of the destructors
of the still-pending reads. -/
theorem readReport_trace_split (dev : RawDevice) (bufSize : Nat) (timeout : Int)
    (start : Nat → StartResult) (waitRet waitErr : Nat) (finishRes : Nat → FinishResult) :
    ∃ pre,
      (readReport dev bufSize timeout start waitRet waitErr finishRes).trace =
        pre ++ cancelEvents (readReport dev bufSize timeout start waitRet waitErr finishRes).readsFinal ∧
      ∀ e ∈ pre, (∃ i n, e = Event.issueRead i n) ∨ (∃ a b, e = Event.waitCall a b) ∨
        (∃ i, e = Event.finishCall i) ∨ (∃ n, e = Event.resize n) := by
  have htrace := issuePhase_trace_issueOnly bufSize start dev.devices.enum []
    [dev.interruptedEvent] [] (by simp)
  cases hip : issuePhase bufSize start dev.devices.enum [] [dev.interruptedEvent] [] with
  | shortCircuit reads tr bytes =>
    rw [hip] at htrace
    simp only [IssueOutcome.traceOf] at htrace
    refine ⟨tr ++ [Event.resize bytes], by simp [readReport, hip], ?_⟩
    intro e he
    rcases List.mem_append.1 he with h1 | h1
    · exact .inl (htrace e h1)
    · rcases List.mem_singleton.1 h1 with rfl
      exact .inr (.inr (.inr ⟨bytes, rfl⟩))
  | startFailed reads tr err =>
    rw [hip] at htrace
    simp only [IssueOutcome.traceOf] at htrace
    exact ⟨tr, by simp [readReport, hip], fun e he => .inl (htrace e he)⟩
  | allPending reads handles tr =>
    rw [hip] at htrace
    simp only [IssueOutcome.traceOf] at htrace
    have hpre : ∀ a b, ∀ e ∈ tr ++ [Event.waitCall a b],
        (∃ i n, e = Event.issueRead i n) ∨ (∃ a b, e = Event.waitCall a b) ∨
        (∃ i, e = Event.finishCall i) ∨ (∃ n, e = Event.resize n) := by
      intro a b e he
      rcases List.mem_append.1 he with h1 | h1
      · exact .inl (htrace e h1)
      · rcases List.mem_singleton.1 h1 with rfl
        exact .inr (.inl ⟨a, b, rfl⟩)
    by_cases h1 : waitRet = WAIT_OBJECT_0 ∨ waitRet = WAIT_TIMEOUT
    · exact ⟨tr ++ [Event.waitCall (if timeout < 0 then INFINITE else timeout.toNat) handles.length],
        by simp [readReport, hip, h1], hpre _ _⟩
    · by_cases h2 : waitRet = WAIT_FAILED
      · exact ⟨tr ++ [Event.waitCall (if timeout < 0 then INFINITE else timeout.toNat) handles.length],
          by simp [readReport, hip, h1, h2, WAIT_FAILED, WAIT_OBJECT_0, WAIT_TIMEOUT], hpre _ _⟩
      · by_cases h3 : reads.length ≤ waitRet - WAIT_OBJECT_0 - 1
        · exact ⟨tr ++ [Event.waitCall (if timeout < 0 then INFINITE else timeout.toNat) handles.length],
            by simp [readReport, hip, h1, h2, h3], hpre _ _⟩
        · have hext : ∀ x, ∀ e ∈ (tr ++ [Event.waitCall (if timeout < 0 then INFINITE else timeout.toNat) handles.length]) ++
              [Event.finishCall (waitRet - WAIT_OBJECT_0 - 1)] ++ x,
              e ∈ x ∨ ((∃ i n, e = Event.issueRead i n) ∨ (∃ a b, e = Event.waitCall a b) ∨
                (∃ i, e = Event.finishCall i) ∨ (∃ n, e = Event.resize n)) := by
            intro x e he
            rcases List.mem_append.1 he with h4 | h4
            · rcases List.mem_append.1 h4 with h5 | h5
              · exact .inr (hpre _ _ e h5)
              · rcases List.mem_singleton.1 h5 with rfl
                exact .inr (.inr (.inr (.inl ⟨_, rfl⟩)))
            · exact .inl h4
          cases hfin : finishRes (waitRet - WAIT_OBJECT_0 - 1) with
          | ok bytes =>
            refine ⟨(tr ++ [Event.waitCall (if timeout < 0 then INFINITE else timeout.toNat) handles.length]) ++
              [Event.finishCall (waitRet - WAIT_OBJECT_0 - 1), Event.resize bytes], ?_, ?_⟩
            · simp [readReport, hip, h1, h2, h3, hfin]
            · intro e he
              have : e ∈ ((tr ++ [Event.waitCall (if timeout < 0 then INFINITE else timeout.toNat) handles.length]) ++
                  [Event.finishCall (waitRet - WAIT_OBJECT_0 - 1)]) ++ [Event.resize bytes] := by
                simpa [List.append_assoc] using he
              rcases hext [Event.resize bytes] e this with h4 | h4
              · rcases List.mem_singleton.1 h4 with rfl
                exact .inr (.inr (.inr ⟨bytes, rfl⟩))
              · exact h4
          | failed err =>
            refine ⟨(tr ++ [Event.waitCall (if timeout < 0 then INFINITE else timeout.toNat) handles.length]) ++
              [Event.finishCall (waitRet - WAIT_OBJECT_0 - 1)], ?_, ?_⟩
            · simp [readReport, hip, h1, h2, h3, hfin]
            · intro e he
              rcases hext [] e (by simpa using he) with h4 | h4
              · cases h4
              · exact h4

/-- C3 (amended): on every outcome of `readReport`, every read that was
issued and is still pending when the call returns has a `CancelIoEx`
request in the trace (the `reads` vector's destructors), but the call
never performs a blocking observation of a cancellation's or
completion's arrival: no `awaitCompletion` event ever occurs, so the
return does not wait for the cancellations to be observed. -/
theorem readReport_cancels_pending_never_awaits (dev : RawDevice) (bufSize : Nat)
    (timeout : Int) (start : Nat → StartResult) (waitRet waitErr : Nat)
    (finishRes : Nat → FinishResult) :
    (∀ r ∈ (readReport dev bufSize timeout start waitRet waitErr finishRes).readsFinal,
      r.pending = true →
      Event.cancelRead r.devIdx ∈
        (readReport dev bufSize timeout start waitRet waitErr finishRes).trace) ∧
    (∀ d, Event.awaitCompletion d ∉
      (readReport dev bufSize timeout start waitRet waitErr finishRes).trace) := by
  obtain ⟨pre, hsplit, hpre⟩ :=
    readReport_trace_split dev bufSize timeout start waitRet waitErr finishRes
  constructor
  · intro r hr hp
    rw [hsplit]
    exact List.mem_append_right pre (cancelEvents_mem _ r hr hp)
  · intro d hmem
    rw [hsplit] at hmem
    rcases List.mem_append.1 hmem with h1 | h1
    · rcases hpre _ h1 with ⟨i, n, h⟩ | ⟨a, b, h⟩ | ⟨i, h⟩ | ⟨n, h⟩ <;> cases h
    · obtain ⟨i, h⟩ := cancelEvents_shape _ _ h1
      cases h

/-- C3 counterexample: with one pending read and a timeout outcome, the
call requests `CancelIoEx` for the read it issued but returns while the
read is still marked pending, without any observation of the
cancellation or completion — the claim's "does not return until each
cancellation … has been observed" does not hold on the code. -/
theorem readReport_cancellation_unobserved :
    Event.cancelRead 0 ∈
      (readReport wdev1 8 0 (fun _ => .pending) WAIT_TIMEOUT 0 (fun _ => .ok 0)).trace ∧
    (readReport wdev1 8 0 (fun _ => .pending) WAIT_TIMEOUT 0
      (fun _ => .ok 0)).readsFinal.filter (·.pending) = [⟨0, 100, 101, true⟩] ∧
    Event.awaitCompletion 0 ∉
      (readReport wdev1 8 0 (fun _ => .pending) WAIT_TIMEOUT 0 (fun _ => .ok 0)).trace := by
  refine ⟨by decide, by decide, by decide⟩

/-! ## C6: open failures during construction -/

theorem constructStep_openFailed (p : Nat) (st : BuildState) (ifc : IfaceInput)
    (hopen : ifc.openHandle = none) : constructStep p st ifc = .ok st := by
  unfold constructStep
  split
  · rfl
  · rw [hopen]

theorem constructLoop_append (p : Nat) : ∀ (l1 l2 : List IfaceInput) (st : BuildState),
    constructLoop p st (l1 ++ l2) =
      match constructLoop p st l1 with
      | .error e => .error e
      | .ok st2 => constructLoop p st2 l2 := by
  intro l1
  induction l1 with
  | nil => intro l2 st; simp [constructLoop]
  | cons ifc rest ih =>
    intro l2 st
    simp only [List.cons_append, constructLoop]
    cases constructStep p st ifc
    · rfl
    · exact ih l2 _

/-- C6 (amended): an interface whose `CreateFile` fails is simply
skipped — the construction result over any enumeration containing it is
the one over the same enumeration without it.  In particular
construction does not fail with `DeviceOpenError`. -/
theorem construct_skips_failed_open (p : Nat) (pre post : List IfaceInput) (ifc : IfaceInput)
    (ie : Option Nat) (iee : Nat) (hopen : ifc.openHandle = none) :
    rawDeviceConstruct p (pre ++ ifc :: post) ie iee =
      rawDeviceConstruct p (pre ++ post) ie iee := by
  unfold rawDeviceConstruct
  rw [constructLoop_append, constructLoop_append]
  cases constructLoop p {} pre with
  | error e => rfl
  | ok st => simp only [constructLoop, constructStep_openFailed p st ifc hopen]

/-- Capability fixture: one button capability and one value capability
on input report 1. -/
def wcapsA : CapsInput :=
  { usagePage := 1, usage := 6, inputReportByteLength := 7,
    inputCaps := ⟨[⟨1, 2, false, 1, 0, 0, 5, 0⟩], [⟨1, 0, false, 1, 0, 0, 7, 1⟩]⟩,
    outputCaps := ⟨[], []⟩, featureCaps := ⟨[], []⟩ }

/-- A healthy candidate interface under parent 7 (every native call
succeeds). -/
def wifc : IfaceInput :=
  { parentOk := true, parent := 7, openHandle := some 100, eventHandle := some 101,
    eventErr := 0, attrs := some (1133, 50475), attrsErr := 0,
    manufacturer := some "Logitech", manufacturerErr := 0,
    product := some "Receiver", productErr := 0,
    preparsedOk := true, preparsedErr := 0, capsQuery := some wcapsA,
    buttonCapsOk := true, valueCapsOk := true }

/-- The same interface, but its `CreateFile` fails. -/
def cex6ifc : IfaceInput := { wifc with openHandle := none }

/-- C6 counterexample: a selected sibling interface (its parent matches)
whose open fails does not make construction fail with `DeviceOpenError`:
the device is constructed successfully (here with no interfaces at
all). -/
theorem construct_open_failure_not_fatal :
    cex6ifc.parentOk = true ∧ cex6ifc.parent = 7 ∧ cex6ifc.openHandle = none ∧
    rawDeviceConstruct 7 [cex6ifc] (some 50) 0 =
      .ok { devices := [], reports := [], interruptedEvent := 50, vendorId := 0,
            productId := 0, name := "", collections := [] } := by
  refine ⟨rfl, rfl, rfl, by decide⟩

/-- Witness for `construct_skips_failed_open` on a concrete
enumeration. -/
theorem construct_skips_failed_open_witness :
    cex6ifc.openHandle = none ∧
    rawDeviceConstruct 7 ([] ++ cex6ifc :: [wifc]) (some 50) 0 =
      rawDeviceConstruct 7 ([] ++ [wifc]) (some 50) 0 :=
  ⟨rfl, construct_skips_failed_open 7 [] [wifc] cex6ifc (some 50) 0 rfl⟩

/-! ## C5: unique report-id routing -/

theorem mapFind_append_some (k v : Nat) (m2 : RouteMap) : ∀ (m : RouteMap),
    mapFind m k = some v → mapFind (m ++ m2) k = some v := by
  intro m
  induction m with
  | nil => intro h; cases h
  | cons p rest ih =>
    obtain ⟨k0, v0⟩ := p
    intro h
    by_cases hk : k0 = k
    · simp [mapFind, hk] at h ⊢
      exact h
    · simp only [mapFind, List.cons_append, if_neg hk] at h ⊢
      exact ih h

theorem mapFind_eq_none_iff (k : Nat) : ∀ (m : RouteMap),
    mapFind m k = none ↔ k ∉ m.map Prod.fst := by
  intro m
  induction m with
  | nil => simp [mapFind]
  | cons p rest ih =>
    obtain ⟨k0, v0⟩ := p
    by_cases hk : k0 = k
    · simp [mapFind, hk]
    · have hk2 : ¬(k = k0) := fun h => hk h.symm
      simp [mapFind, hk, hk2, ih]

theorem mapFind_append_singleton_self (k v : Nat) : ∀ (m : RouteMap),
    mapFind m k = none → mapFind (m ++ [(k, v)]) k = some v := by
  intro m
  induction m with
  | nil => intro _; simp [mapFind]
  | cons p rest ih =>
    obtain ⟨k0, v0⟩ := p
    intro h
    by_cases hk : k0 = k
    · simp [mapFind, hk] at h
    · simp only [mapFind, List.cons_append, if_neg hk] at h ⊢
      exact ih h

theorem routeReports_conflict (hdev : Nat) : ∀ (ids : List ReportID) (reports : RouteMap),
    (∃ id ∈ ids, ∃ h, mapFind reports id.id = some h ∧ h ≠ hdev) →
    routeReports reports hdev ids =
      .error (.runtimeError "Same Report ID on different handle.") := by
  intro ids
  induction ids with
  | nil =>
    rintro reports ⟨id, hmem, _⟩
    cases hmem
  | cons id0 rest ih =>
    rintro reports ⟨id, hmem, h, hfind, hne⟩
    rcases List.mem_cons.1 hmem with rfl | hmem2
    · simp [routeReports, hfind, hne]
    · unfold routeReports
      cases hcase : mapFind reports id0.id with
      | none =>
        exact ih _ ⟨id, hmem2, h, mapFind_append_some id.id h [(id0.id, hdev)] _ hfind, hne⟩
      | some h0 =>
        by_cases he : h0 = hdev
        · simp only [if_pos he]
          exact ih _ ⟨id, hmem2, h, hfind, hne⟩
        · simp only [if_neg he]

theorem routeReports_ok_monotone (hdev : Nat) : ∀ (ids : List ReportID)
    (reports reports2 : RouteMap),
    routeReports reports hdev ids = .ok reports2 →
    ∀ k v, mapFind reports k = some v → mapFind reports2 k = some v := by
  intro ids
  induction ids with
  | nil =>
    intro reports reports2 hok k v hf
    cases hok
    exact hf
  | cons id0 rest ih =>
    intro reports reports2 hok k v hf
    unfold routeReports at hok
    split at hok
    next h0 hcase =>
      split at hok
      · exact ih _ _ hok k v hf
      · cases hok
    next hcase =>
      exact ih _ _ hok k v (mapFind_append_some k v [(id0.id, hdev)] _ hf)

theorem routeReports_ok_nodup (hdev : Nat) : ∀ (ids : List ReportID)
    (reports reports2 : RouteMap),
    routeReports reports hdev ids = .ok reports2 →
    (reports.map Prod.fst).Nodup → (reports2.map Prod.fst).Nodup := by
  intro ids
  induction ids with
  | nil =>
    intro reports reports2 hok hnd
    cases hok
    exact hnd
  | cons id0 rest ih =>
    intro reports reports2 hok hnd
    unfold routeReports at hok
    split at hok
    next h0 hcase =>
      split at hok
      · exact ih _ _ hok hnd
      · cases hok
    next hcase =>
      refine ih _ _ hok ?_
      rw [List.map_append]
      refine List.Nodup.append hnd (by simp) ?_
      intro a ha hb
      simp only [List.map_cons, List.map_nil, List.mem_singleton] at hb
      subst hb
      exact ((mapFind_eq_none_iff id0.id reports).1 hcase) ha

theorem routeReports_ok_covers (hdev : Nat) : ∀ (ids : List ReportID)
    (reports reports2 : RouteMap),
    routeReports reports hdev ids = .ok reports2 →
    ∀ id ∈ ids, ∃ v, mapFind reports2 id.id = some v := by
  intro ids
  induction ids with
  | nil =>
    intro reports reports2 _ id hmem
    cases hmem
  | cons id0 rest ih =>
    intro reports reports2 hok id hmem
    unfold routeReports at hok
    split at hok
    next h0 hcase =>
      split at hok
      next he =>
        rcases List.mem_cons.1 hmem with rfl | hmem2
        · exact ⟨h0, routeReports_ok_monotone hdev rest _ _ hok id.id h0 hcase⟩
        · exact ih _ _ hok id hmem2
      · cases hok
    next hcase =>
      rcases List.mem_cons.1 hmem with rfl | hmem2
      · exact ⟨hdev, routeReports_ok_monotone hdev rest _ _ hok id.id hdev
          (mapFind_append_singleton_self id.id hdev reports hcase)⟩
      · exact ih _ _ hok id hmem2

/-- The routing invariant: no duplicate keys in the router, and every
report id declared by a stored collection is routed. -/
def RouteInv (reports : RouteMap) (collections : List Collection) : Prop :=
  (reports.map Prod.fst).Nodup ∧
  ∀ c ∈ collections, ∀ kv ∈ c.reports, ∃ v, mapFind reports kv.1.id = some v

theorem applyFirstAttrs_preserves (st st2 : BuildState) (ifc : IfaceInput)
    (h : applyFirstAttrs st ifc = .ok st2) :
    st2.reports = st.reports ∧ st2.collections = st.collections := by
  unfold applyFirstAttrs at h
  split at h
  · split at h
    · cases h
    · split at h
      · cases h
      · split at h
        · cases h
        · cases h
          exact ⟨rfl, rfl⟩
  · cases h
    exact ⟨rfl, rfl⟩

theorem constructStep_routeInv (p : Nat) (st st2 : BuildState) (ifc : IfaceInput)
    (hstep : constructStep p st ifc = .ok st2)
    (hinv : RouteInv st.reports st.collections) :
    RouteInv st2.reports st2.collections := by
  unfold constructStep at hstep
  split at hstep
  · cases hstep
    exact hinv
  · split at hstep
    · cases hstep
      exact hinv
    · split at hstep
      · cases hstep
      next hdev event =>
        split at hstep
        · cases hstep
        next st3 hfirst =>
          split at hstep
          · cases hstep
          · split at hstep
            · cases hstep
            next caps hcaps =>
              split at hstep
              · cases hstep
              next m1 hm1 =>
                split at hstep
                · cases hstep
                next m2 hm2 =>
                  split at hstep
                  · cases hstep
                  next m3 hm3 =>
                    dsimp only at hstep
                    split at hstep
                    · cases hstep
                    next reports2 hroute =>
                      cases hstep
                      have hst3 := applyFirstAttrs_preserves _ st3 ifc hfirst
                      obtain ⟨hr3, hc3⟩ := hst3
                      simp only [BuildState.reports, BuildState.collections] at hr3 hc3 ⊢
                      constructor
                      · exact routeReports_ok_nodup _ _ _ _ hroute
                          (by rw [hr3]; exact hinv.1)
                      · intro c hc kv hkv
                        rw [hc3] at hc
                        rcases List.mem_append.1 hc with hold | hnew
                        · obtain ⟨v, hv⟩ := hinv.2 c hold kv hkv
                          exact ⟨v, routeReports_ok_monotone _ _ _ _ hroute kv.1.id v
                            (by rw [hr3]; exact hv)⟩
                        · rcases List.mem_singleton.1 hnew with rfl
                          exact routeReports_ok_covers _ _ _ _ hroute kv.1
                            (List.mem_map_of_mem _ hkv)

theorem constructLoop_routeInv (p : Nat) : ∀ (ifaces : List IfaceInput) (st st2 : BuildState),
    constructLoop p st ifaces = .ok st2 →
    RouteInv st.reports st.collections → RouteInv st2.reports st2.collections := by
  intro ifaces
  induction ifaces with
  | nil =>
    intro st st2 hok hinv
    cases hok
    exact hinv
  | cons ifc rest ih =>
    intro st st2 hok hinv
    unfold constructLoop at hok
    cases hstep : constructStep p st ifc with
    | error e => rw [hstep] at hok; cases hok
    | ok st3 =>
      rw [hstep] at hok
      exact ih st3 st2 hok (constructStep_routeInv p st st3 ifc hstep hinv)

/-- C5: the routing check of lines 240-244 fails with
`"Same Report ID on different handle."` whenever one of an interface's
declared report ids is already routed to a different handle (two
interfaces declaring the same `ReportID` necessarily share its numeric
id, so the second one trips this check); and on successful construction
the router has no duplicate numeric ids and routes every report id
declared by every stored collection — each id is routed to exactly one
handle across the whole composite device. -/
theorem construct_unique_report_routing :
    (∀ (reports : RouteMap) (hdev : Nat) (ids : List ReportID),
      (∃ id ∈ ids, ∃ h, mapFind reports id.id = some h ∧ h ≠ hdev) →
      routeReports reports hdev ids =
        .error (.runtimeError "Same Report ID on different handle.")) ∧
    (∀ (p : Nat) (ifaces : List IfaceInput) (ie : Option Nat) (iee : Nat) (d : RawDevice),
      rawDeviceConstruct p ifaces ie iee = .ok d →
      (d.reports.map Prod.fst).Nodup ∧
      ∀ c ∈ d.collections, ∀ kv ∈ c.reports, ∃ v, mapFind d.reports kv.1.id = some v) := by
  constructor
  · intro reports hdev ids hconf
    exact routeReports_conflict hdev ids reports hconf
  · intro p ifaces ie iee d hok
    unfold rawDeviceConstruct at hok
    cases hloop : constructLoop p {} ifaces with
    | error e => rw [hloop] at hok; cases hok
    | ok st =>
      rw [hloop] at hok
      cases ie with
      | none => cases hok
      | some ih0 =>
        cases hok
        have := constructLoop_routeInv p ifaces {} st hloop (by constructor <;> simp [BuildState.reports, BuildState.collections])
        exact ⟨this.1, this.2⟩

/-- The collection built from `wcapsA`. -/
def wcoll : Collection :=
  { ctype := 0, usage := 65542,
    reports := [(⟨.Input, 1⟩, [⟨2, .list [65541]⟩, ⟨0, .list [65543]⟩])] }

/-- The device built by `rawDeviceConstruct 7 [wifc] (some 50) 0`. -/
def wdev7 : RawDevice :=
  { devices := [⟨100, 101, ⟨1, 6, 7⟩⟩], reports := [(1, 100)], interruptedEvent := 50,
    vendorId := 1133, productId := 50475, name := "Logitech Receiver",
    collections := [wcoll] }

/-- Witness for `construct_unique_report_routing`: a concrete routing
conflict errors out, and a concrete successful construction satisfies
the uniqueness conclusions. -/
theorem construct_unique_report_routing_witness :
    (routeReports [(1, 5)] 6 [⟨.Input, 1⟩] =
      .error (.runtimeError "Same Report ID on different handle.")) ∧
    ((wdev7.reports.map Prod.fst).Nodup ∧
      ∀ c ∈ wdev7.collections, ∀ kv ∈ c.reports, ∃ v, mapFind wdev7.reports kv.1.id = some v) :=
  ⟨construct_unique_report_routing.1 [(1, 5)] 6 [⟨.Input, 1⟩]
     ⟨⟨.Input, 1⟩, by decide, 5, by decide, by decide⟩,
   construct_unique_report_routing.2 7 [wifc] (some 50) 0 wdev7 (by with_unfolding_all rfl)⟩

/-! ## C8: duplicating a device -/

/-- What `rawDeviceCopy` actually produces from `wdev7` when every
native call succeeds. -/
def wclone : RawDevice :=
  { devices := [⟨300, 301, ⟨0, 0, 0⟩⟩], reports := [], interruptedEvent := 302,
    vendorId := 1133, productId := 50475, name := "Logitech Receiver",
    collections := [wcoll] }

/-- C8 (code-bug evidence): duplicating a device re-opens its interfaces
and copies vendor id, product id, name and descriptor, but the copy
constructor never copies `PrivateImpl::reports` nor the per-interface
`HIDP_CAPS`, so the clone's router is empty — `writeReport` of an id
routable on the original fails with `"Report ID not found."` on the
clone — and its capability records are zeroed. -/
theorem rawDeviceCopy_loses_routing_and_caps :
    rawDeviceCopy wdev7 (fun _ => some 300) (fun _ => some 301) 0 0 (some 302) 0 = .ok wclone ∧
    wclone.vendorId = wdev7.vendorId ∧ wclone.productId = wdev7.productId ∧
    wclone.name = wdev7.name ∧ wclone.collections = wdev7.collections ∧
    mapFind wdev7.reports 1 = some 100 ∧
    wclone.reports = [] ∧
    (writeReport wdev7.reports [1, 0] (.done 2)).result = .ok 2 ∧
    (writeReport wclone.reports [1, 0] (.done 2)).result =
      .error (.runtimeError "Report ID not found.") ∧
    wclone.devices.map (·.caps) = [{ usagePage := 0, usage := 0, inputReportByteLength := 0 }] := by
  refine ⟨by with_unfolding_all rfl, rfl, rfl, rfl, rfl, by with_unfolding_all rfl, rfl,
    by with_unfolding_all rfl, by with_unfolding_all rfl, by with_unfolding_all rfl⟩

end HID
